import Mathlib

/-!
# external-dns: `source/service_cname.go`

A shallow embedding of the `serviceCnameSource` decorator.

Modelling conventions

* Everything outside the decorator (the wrapped source, the resolver behind
  `net.LookupAddr`, the process-wide logrus logger) lives in an abstract world
  `ω`; every call into it takes the world and returns the new one.
* A Go result pair `(value, err)` is a pair whose second component is an
  `Option ε` (`none` is the nil error).
* A run-time panic is an `Except.error` carrying a `Panic`.
* The slice `[]*endpoint.Endpoint` handed over by the wrapped source is the
  list of the endpoint objects it points to: the pointers are taken non-nil
  and pairwise distinct and the `Targets` arrays unshared (the decorator owns
  the returned sequence), so the in-place update of `ep` is an update of the
  list element at the same position.
* Strings are sequences of characters; `len` is their number.
-/

namespace source

/-- Modelled from the spec: the record `endpoint.Endpoint` is declared in package
`endpoint`, outside `src/`. The decorator touches `DNSName`, `Targets` and
`RecordType`; every remaining field is kept in `other`. -/
structure Endpoint (ρ : Type) where
  DNSName : String
  Targets : List String
  RecordType : String
  other : ρ
deriving DecidableEq, Repr

/-- Modelled from the spec: the constant `endpoint.RecordTypeCNAME` is declared in
package `endpoint`, outside `src/`; it is the canonical-name record type tag. -/
def RecordTypeCNAME : String := "CNAME"

/-- Modelled from the spec: `strings.HasSuffix` of the Go standard library (outside
`src/`): the string ends with the suffix. -/
def HasSuffix (s suffix : String) : Bool :=
  decide (suffix.length ≤ s.length) &&
    decide (s.data.drop (s.length - suffix.length) = suffix.data)

/-- Modelled from the spec: `strings.TrimSuffix` of the Go standard library (outside
`src/`): if the string ends with the suffix, exactly one trailing occurrence is
stripped, otherwise the string is returned as it is. -/
def TrimSuffix (s suffix : String) : String :=
  if HasSuffix s suffix then ⟨s.data.take (s.length - suffix.length)⟩ else s

/-- The run-time panics the decorator can raise. -/
inductive Panic where
  | indexOutOfRange
  | nilDereference
deriving DecidableEq, Repr

/-- The facilities the decorator calls besides the wrapped source:
`net.LookupAddr`, the logrus calls `log.Warn` and `log.Debug`, and the method
`Error()` of the error values. -/
structure Runtime (ω ε : Type) where
  LookupAddr : String → ω → (List String × Option ε) × ω
  Warn : String → ω → ω
  Debug : String → ω → ω
  Error : ε → String

/-- The interface `Source`: `Endpoints(ctx)` and `AddEventHandler(ctx, handler)`.
`χ` is `context.Context`, `η` the type of the handlers. -/
structure Source (ω ε χ η ρ : Type) where
  Endpoints : χ → ω → (List (Endpoint ρ) × Option ε) × ω
  AddEventHandler : χ → η → ω → ω

/-- The struct `serviceCnameSource`; `client` and `serviceSrc` are interface values
and may be nil. -/
structure serviceCnameSource (ω ε χ η κ ρ : Type) where
  client : Option κ
  namespace' : String
  serviceSrc : Option (Source ω ε χ η ρ)

/-- `NewServiceCnameSource(ctx, kubeClient, namespace, serviceSrc)`: returns the
decorator and a nil error. -/
def NewServiceCnameSource {ω ε χ η κ ρ : Type} (_ctx : χ) (kubeClient : Option κ)
    (namespace' : String) (serviceSrc : Option (Source ω ε χ η ρ)) (w : ω) :
    (serviceCnameSource ω ε χ η κ ρ × Option ε) × ω :=
  (({ client := kubeClient, namespace' := namespace', serviceSrc := serviceSrc }, none), w)

/-- The body of the `for _, ep := range endpoints` loop of `Endpoints`, lines 60-72:
the endpoint after the iteration, or the panic that stopped it. -/
def Endpoints.loopBody {ω ε ρ : Type} (rt : Runtime ω ε) (ep : Endpoint ρ) (w : ω) :
    Except Panic (Endpoint ρ) × ω :=
  match ep.Targets[0]? with
  | none => (.error .indexOutOfRange, w)
  | some target =>
    match rt.LookupAddr target w with
    | ((_, some err), w1) =>
      let w2 := rt.Warn ("Error retrieving PTR record, leavig as-is: " ++ target) w1
      let w3 := rt.Debug ("PTR Lookup error: " ++ rt.Error err) w2
      (.ok ep, w3)
    | ((cname, none), w1) =>
      match cname[0]? with
      | none => (.error .indexOutOfRange, w1)
      | some c0 =>
        let w2 := rt.Debug ("Resolved PTR " ++ ep.DNSName ++ " -> " ++ c0) w1
        (.ok { ep with Targets := ep.Targets.set 0 (TrimSuffix c0 "."),
                       RecordType := RecordTypeCNAME }, w2)

/-- The `for _, ep := range endpoints` loop of `Endpoints`, lines 59-73: every
element in order, each through the loop body; a panic stops the loop. -/
def Endpoints.loop {ω ε ρ : Type} (rt : Runtime ω ε) :
    List (Endpoint ρ) → ω → Except Panic (List (Endpoint ρ)) × ω
  | [], w => (.ok [], w)
  | ep :: eps, w =>
    match Endpoints.loopBody rt ep w with
    | (.error p, w1) => (.error p, w1)
    | (.ok ep1, w1) =>
      match Endpoints.loop rt eps w1 with
      | (.error p, w2) => (.error p, w2)
      | (.ok eps1, w2) => (.ok (ep1 :: eps1), w2)

/-- The method `(sc *serviceCnameSource) Endpoints(ctx)`. -/
def serviceCnameSource.Endpoints {ω ε χ η κ ρ : Type} (rt : Runtime ω ε)
    (sc : serviceCnameSource ω ε χ η κ ρ) (ctx : χ) (w : ω) :
    Except Panic (List (Endpoint ρ) × Option ε) × ω :=
  match sc.serviceSrc with
  | none => (.error .nilDereference, w)
  | some src =>
    match src.Endpoints ctx w with
    | ((_, some err), w1) => (.ok ([], some err), w1)
    | ((endpoints, none), w1) =>
      match Endpoints.loop rt endpoints w1 with
      | (.error p, w2) => (.error p, w2)
      | (.ok eps, w2) => (.ok (eps, none), w2)

/-- The method `(sc *serviceCnameSource) AddEventHandler(ctx, handler)`: the
decorator after the call and the new world, or the panic. -/
def serviceCnameSource.AddEventHandler {ω ε χ η κ ρ : Type} (rt : Runtime ω ε)
    (sc : serviceCnameSource ω ε χ η κ ρ) (ctx : χ) (handler : η) (w : ω) :
    Except Panic (serviceCnameSource ω ε χ η κ ρ) × ω :=
  let w1 := rt.Debug "Adding event handler for serviceCname" w
  match sc.serviceSrc with
  | none => (.error .nilDereference, w1)
  | some src => (.ok sc, src.AddEventHandler ctx handler w1)

/-- The world in which iteration `i` of the loop over `L` starts, when the loop
starts in `w`: the world the loop leaves after the first `i` endpoints. -/
def worldBefore {ω ε ρ : Type} (rt : Runtime ω ε) (L : List (Endpoint ρ)) (w : ω)
    (i : Nat) : ω :=
  (Endpoints.loop rt (L.take i) w).2

/-! ## A recording world, for evaluating the model on concrete inputs -/

/-- A world that records what was done to it. -/
structure Recorder where
  logs : List (String × String)
  lookups : List String
  handlers : List (Nat × Nat)
  calls : Nat
deriving DecidableEq, Repr

/-- A resolver that knows two addresses. -/
def recRuntime : Runtime Recorder String where
  LookupAddr := fun addr w =>
    (if addr = "203.0.113.9" then (["svc-lb.cloudprovider.net."], none)
     else if addr = "198.51.100.7" then (["edge.example.org", "alt.example.org"], none)
     else ([], some "no such host"),
     { w with lookups := w.lookups ++ [addr] })
  Warn := fun msg w => { w with logs := w.logs ++ [("warning", msg)] }
  Debug := fun msg w => { w with logs := w.logs ++ [("debug", msg)] }
  Error := fun e => e

/-- A wrapped source that returns the given result and records its calls. -/
def recSource (res : List (Endpoint Unit) × Option String) :
    Source Recorder String Nat Nat Unit where
  Endpoints := fun _ w => (res, { w with calls := w.calls + 1 })
  AddEventHandler := fun ctx h w => { w with handlers := w.handlers ++ [(ctx, h)] }

/-- The decorator around `recSource res`. -/
def recDecorator (res : List (Endpoint Unit) × Option String) :
    serviceCnameSource Recorder String Nat Nat Unit Unit :=
  { client := none, namespace' := "default", serviceSrc := some (recSource res) }

/-- An endpoint whose target the recording resolver resolves to a name with a
trailing dot. -/
def epSvc : Endpoint Unit := ⟨"svc.example.com", ["203.0.113.9"], "A", ()⟩

/-- An endpoint with two targets; the recording resolver resolves the first one to
two names without a trailing dot. -/
def epEdge : Endpoint Unit := ⟨"edge.example.com", ["198.51.100.7", "198.51.100.8"], "A", ()⟩

/-- An endpoint whose target the recording resolver does not know. -/
def epDb : Endpoint Unit := ⟨"db.example.com", ["10.0.0.1"], "AAAA", ()⟩

/-- An endpoint without targets. -/
def epBare : Endpoint Unit := ⟨"bare.example.com", [], "A", ()⟩

/-- The empty recording world. -/
def rec0 : Recorder := { logs := [], lookups := [], handlers := [], calls := 0 }

/-- The world after one call of `Endpoints` of the wrapped recording source. -/
def rec1 : Recorder := { logs := [], lookups := [], handlers := [], calls := 1 }

/-- Modelled from the spec: `net.LookupAddr` belongs to the Go standard library
(outside `src/`); a lookup yields either a non-empty sequence of candidate
hostnames or a lookup failure. -/
def ResolverContract {ω ε : Type} (rt : Runtime ω ε) : Prop :=
  ∀ addr w, (rt.LookupAddr addr w).1.2 = none → (rt.LookupAddr addr w).1.1 ≠ []

/-! ## Lemmas on `TrimSuffix` -/

lemma dot_length : (".": String).length = 1 := by decide

lemma dot_data : (".": String).data = ['.'] := by decide

lemma append_dot_data (h : String) : (h ++ ".").data = h.data ++ ['.'] := by
  rw [String.data_append, dot_data]

lemma append_dot_length (h : String) : (h ++ ".").length = h.data.length + 1 := by
  rw [String.length, append_dot_data, List.length_append, List.length_singleton]

lemma hasSuffix_append_dot (h : String) : HasSuffix (h ++ ".") "." = true := by
  unfold HasSuffix
  rw [append_dot_length, dot_length, append_dot_data, dot_data]
  simp

lemma trimSuffix_append_dot (h : String) : TrimSuffix (h ++ ".") "." = h := by
  rw [TrimSuffix, if_pos (hasSuffix_append_dot h)]
  apply String.ext
  rw [append_dot_length, dot_length, append_dot_data]
  simp

lemma exists_of_hasSuffix_dot (s : String) (hs : HasSuffix s "." = true) :
    ∃ h : String, s = h ++ "." := by
  simp only [HasSuffix, dot_length, dot_data, Bool.and_eq_true, decide_eq_true_eq] at hs
  refine ⟨⟨s.data.take (s.length - 1)⟩, ?_⟩
  apply String.ext
  simp only [String.data_append, dot_data]
  rw [← hs.2]
  exact (List.take_append_drop _ _).symm

lemma trimSuffix_of_no_dot (h : String) (hdot : ¬ ∃ h1 : String, h = h1 ++ ".") :
    TrimSuffix h "." = h := by
  rw [TrimSuffix, if_neg]
  intro hs
  exact hdot (exists_of_hasSuffix_dot h hs)

/-! ## Lemmas on the loop body -/

section loop

variable {ω ε ρ : Type}

lemma loopBody_empty (rt : Runtime ω ε) (ep : Endpoint ρ) (w : ω) (h : ep.Targets = []) :
    Endpoints.loopBody rt ep w = (.error .indexOutOfRange, w) := by
  simp [Endpoints.loopBody, h]

lemma loopBody_fail (rt : Runtime ω ε) (ep : Endpoint ρ) (w w1 : ω) (target : String)
    (names : List String) (e : ε) (ht : ep.Targets[0]? = some target)
    (hl : rt.LookupAddr target w = ((names, some e), w1)) :
    Endpoints.loopBody rt ep w =
      (.ok ep, rt.Debug ("PTR Lookup error: " ++ rt.Error e)
        (rt.Warn ("Error retrieving PTR record, leavig as-is: " ++ target) w1)) := by
  simp only [Endpoints.loopBody, ht, hl]

lemma loopBody_succ (rt : Runtime ω ε) (ep : Endpoint ρ) (w w1 : ω) (target c : String)
    (names : List String) (ht : ep.Targets[0]? = some target)
    (hl : rt.LookupAddr target w = ((c :: names, none), w1)) :
    Endpoints.loopBody rt ep w =
      (.ok { ep with Targets := ep.Targets.set 0 (TrimSuffix c "."),
                     RecordType := RecordTypeCNAME },
        rt.Debug ("Resolved PTR " ++ ep.DNSName ++ " -> " ++ c) w1) := by
  simp only [Endpoints.loopBody, ht, hl, List.getElem?_cons_zero]

lemma loopBody_nocand (rt : Runtime ω ε) (ep : Endpoint ρ) (w w1 : ω) (target : String)
    (ht : ep.Targets[0]? = some target)
    (hl : rt.LookupAddr target w = (([], none), w1)) :
    Endpoints.loopBody rt ep w = (.error .indexOutOfRange, w1) := by
  simp only [Endpoints.loopBody, ht, hl, List.getElem?_nil]

lemma loopBody_panic (rt : Runtime ω ε) (ep : Endpoint ρ) (w w1 : ω) (p : Panic)
    (h : Endpoints.loopBody rt ep w = (.error p, w1)) : p = .indexOutOfRange := by
  unfold Endpoints.loopBody at h
  split at h
  · simp only [Prod.mk.injEq, Except.error.injEq] at h
    exact h.1.symm
  · split at h
    · simp at h
    · split at h
      · simp only [Prod.mk.injEq, Except.error.injEq] at h
        exact h.1.symm
      · simp at h

lemma loopBody_total (rt : Runtime ω ε) (hnet : ResolverContract rt) (ep : Endpoint ρ)
    (w : ω) (h : ep.Targets ≠ []) :
    ∃ ep1 w1, Endpoints.loopBody rt ep w = (.ok ep1, w1) := by
  obtain ⟨target, ts, hts⟩ := List.exists_cons_of_ne_nil h
  have ht : ep.Targets[0]? = some target := by simp [hts]
  rcases hl : rt.LookupAddr target w with ⟨⟨names, _ | e⟩, w1⟩
  · cases names with
    | nil =>
      have := hnet target w
      simp [hl] at this
    | cons c names => exact ⟨_, _, loopBody_succ rt ep w w1 target c names ht hl⟩
  · exact ⟨_, _, loopBody_fail rt ep w w1 target names e ht hl⟩

/-! ## Lemmas on the loop -/

lemma loop_cons_ok (rt : Runtime ω ε) (ep ep1 : Endpoint ρ) (eps : List (Endpoint ρ))
    (w w1 : ω) (h : Endpoints.loopBody rt ep w = (.ok ep1, w1)) :
    Endpoints.loop rt (ep :: eps) w =
      match Endpoints.loop rt eps w1 with
      | (.error p, w2) => (.error p, w2)
      | (.ok eps1, w2) => (.ok (ep1 :: eps1), w2) := by
  simp only [Endpoints.loop, h]

lemma loop_cons_snd (rt : Runtime ω ε) (ep ep1 : Endpoint ρ) (eps : List (Endpoint ρ))
    (w w1 : ω) (h : Endpoints.loopBody rt ep w = (.ok ep1, w1)) :
    (Endpoints.loop rt (ep :: eps) w).2 = (Endpoints.loop rt eps w1).2 := by
  rw [loop_cons_ok rt ep ep1 eps w w1 h]
  rcases Endpoints.loop rt eps w1 with ⟨_ | _, w2⟩ <;> rfl

lemma worldBefore_zero (rt : Runtime ω ε) (L : List (Endpoint ρ)) (w : ω) :
    worldBefore rt L w 0 = w := by
  simp [worldBefore, Endpoints.loop]

lemma worldBefore_succ (rt : Runtime ω ε) (ep ep1 : Endpoint ρ) (eps : List (Endpoint ρ))
    (w w1 : ω) (i : Nat) (h : Endpoints.loopBody rt ep w = (.ok ep1, w1)) :
    worldBefore rt (ep :: eps) w (i + 1) = worldBefore rt eps w1 i := by
  simp only [worldBefore, List.take_succ_cons]
  exact loop_cons_snd rt ep ep1 _ w w1 h

lemma loop_cons_inv (rt : Runtime ω ε) (ep : Endpoint ρ) (eps res : List (Endpoint ρ))
    (w w2 : ω) (h : Endpoints.loop rt (ep :: eps) w = (.ok res, w2)) :
    ∃ ep1 w1 eps1, Endpoints.loopBody rt ep w = (.ok ep1, w1) ∧
      Endpoints.loop rt eps w1 = (.ok eps1, w2) ∧ res = ep1 :: eps1 := by
  rcases hb : Endpoints.loopBody rt ep w with ⟨p | ep1, w1⟩
  · simp [Endpoints.loop, hb] at h
  · rw [loop_cons_ok rt ep ep1 eps w w1 hb] at h
    rcases hr : Endpoints.loop rt eps w1 with ⟨p | eps1, w3⟩
    · simp [hr] at h
    · simp only [hr, Prod.mk.injEq, Except.ok.injEq] at h
      exact ⟨ep1, w1, eps1, rfl, by rw [hr, h.2], h.1.symm⟩

/-- What a returning loop returns: a list of the same length whose element at each
index is the loop body's result on the input element at that index. -/
lemma loop_index (rt : Runtime ω ε) (L : List (Endpoint ρ)) :
    ∀ (w w2 : ω) (res : List (Endpoint ρ)), Endpoints.loop rt L w = (.ok res, w2) →
      res.length = L.length ∧
      ∀ i ep, L[i]? = some ep → ∃ ep1, res[i]? = some ep1 ∧
        Endpoints.loopBody rt ep (worldBefore rt L w i) =
          (.ok ep1, worldBefore rt L w (i + 1)) := by
  induction L with
  | nil =>
    intro w w2 res h
    simp only [Endpoints.loop, Prod.mk.injEq, Except.ok.injEq] at h
    refine ⟨by rw [← h.1], ?_⟩
    intro i ep hi
    simp at hi
  | cons a eps ih =>
    intro w w2 res h
    obtain ⟨ep1, w1, eps1, hb, hr, rfl⟩ := loop_cons_inv rt a eps res w w2 h
    obtain ⟨hlen, hidx⟩ := ih w1 w2 eps1 hr
    refine ⟨by simp [hlen], ?_⟩
    intro i ep hi
    cases i with
    | zero =>
      simp only [List.getElem?_cons_zero, Option.some.injEq] at hi
      subst hi
      refine ⟨ep1, by simp, ?_⟩
      rw [worldBefore_zero, worldBefore_succ rt a ep1 eps w w1 0 hb, worldBefore_zero]
      exact hb
    | succ j =>
      simp only [List.getElem?_cons_succ] at hi
      obtain ⟨ep2, h1, h2⟩ := hidx j ep hi
      refine ⟨ep2, by simpa using h1, ?_⟩
      rw [worldBefore_succ rt a ep1 eps w w1 j hb,
        worldBefore_succ rt a ep1 eps w w1 (j + 1) hb]
      exact h2

lemma loop_total (rt : Runtime ω ε) (hnet : ResolverContract rt) (L : List (Endpoint ρ)) :
    ∀ w : ω, (∀ ep ∈ L, ep.Targets ≠ []) →
      ∃ res w2, Endpoints.loop rt L w = (.ok res, w2) := by
  induction L with
  | nil => intro w _; exact ⟨[], w, rfl⟩
  | cons a eps ih =>
    intro w hT
    obtain ⟨ep1, w1, hb⟩ := loopBody_total rt hnet a w (hT a (List.mem_cons_self _ _))
    obtain ⟨eps1, w2, hr⟩ := ih w1 (fun ep hep => hT ep (List.mem_cons_of_mem _ hep))
    exact ⟨ep1 :: eps1, w2, by rw [loop_cons_ok rt a ep1 eps w w1 hb, hr]⟩

lemma loop_panic (rt : Runtime ω ε) (L : List (Endpoint ρ)) :
    ∀ (w w2 : ω) (p : Panic), Endpoints.loop rt L w = (.error p, w2) →
      p = .indexOutOfRange := by
  induction L with
  | nil => intro w w2 p h; simp [Endpoints.loop] at h
  | cons a eps ih =>
    intro w w2 p h
    rcases hb : Endpoints.loopBody rt a w with ⟨q | ep1, w1⟩
    · simp only [Endpoints.loop, hb, Prod.mk.injEq, Except.error.injEq] at h
      rw [← h.1]
      exact loopBody_panic rt a w w1 q hb
    · rw [loop_cons_ok rt a ep1 eps w w1 hb] at h
      rcases hr : Endpoints.loop rt eps w1 with ⟨q | eps1, w3⟩
      · simp only [hr, Prod.mk.injEq, Except.error.injEq] at h
        rw [← h.1]
        exact ih w1 w3 q hr
      · simp [hr] at h

lemma loop_ok_targets (rt : Runtime ω ε) (L : List (Endpoint ρ)) :
    ∀ (w w2 : ω) (res : List (Endpoint ρ)), Endpoints.loop rt L w = (.ok res, w2) →
      ∀ ep ∈ L, ep.Targets ≠ [] := by
  induction L with
  | nil => intro w w2 res _ ep hep; simp at hep
  | cons a eps ih =>
    intro w w2 res h ep hep
    obtain ⟨ep1, w1, eps1, hb, hr, _⟩ := loop_cons_inv rt a eps res w w2 h
    rcases List.mem_cons.mp hep with rfl | hmem
    · intro hnil
      rw [loopBody_empty rt ep w hnil] at hb
      simp at hb
    · exact ih w1 w2 eps1 hr ep hmem

lemma loopBody_ok_inv (rt : Runtime ω ε) (ep ep1 : Endpoint ρ) (w w1 : ω)
    (h : Endpoints.loopBody rt ep w = (.ok ep1, w1)) :
    ∃ target, ep.Targets[0]? = some target ∧
      ((∃ names e w3, rt.LookupAddr target w = ((names, some e), w3) ∧ ep1 = ep) ∨
       (∃ c names w3, rt.LookupAddr target w = ((c :: names, none), w3) ∧
          ep1 = { ep with Targets := ep.Targets.set 0 (TrimSuffix c "."),
                          RecordType := RecordTypeCNAME })) := by
  rcases ht : ep.Targets[0]? with _ | target
  · simp [Endpoints.loopBody, ht] at h
  · refine ⟨target, rfl, ?_⟩
    rcases hl : rt.LookupAddr target w with ⟨⟨names, _ | e⟩, w3⟩
    · cases names with
      | nil =>
        rw [loopBody_nocand rt ep w w3 target ht hl] at h
        simp at h
      | cons c names =>
        rw [loopBody_succ rt ep w w3 target c names ht hl] at h
        simp only [Prod.mk.injEq, Except.ok.injEq] at h
        exact Or.inr ⟨c, names, w3, rfl, h.1.symm⟩
    · rw [loopBody_fail rt ep w w3 target names e ht hl] at h
      simp only [Prod.mk.injEq, Except.ok.injEq] at h
      exact Or.inl ⟨names, e, w3, rfl, h.1.symm⟩

end loop

/-! ## Lemmas on the method `Endpoints` -/

section decorator

variable {ω ε χ η κ ρ : Type}

lemma Endpoints_upstream_ok (rt : Runtime ω ε) (sc : serviceCnameSource ω ε χ η κ ρ)
    (src : Source ω ε χ η ρ) (ctx : χ) (w w1 : ω) (L : List (Endpoint ρ))
    (hsrc : sc.serviceSrc = some src) (hup : src.Endpoints ctx w = ((L, none), w1)) :
    sc.Endpoints rt ctx w =
      match Endpoints.loop rt L w1 with
      | (.error p, w2) => (.error p, w2)
      | (.ok eps, w2) => (.ok (eps, none), w2) := by
  simp only [serviceCnameSource.Endpoints, hsrc, hup]

lemma Endpoints_upstream_err (rt : Runtime ω ε) (sc : serviceCnameSource ω ε χ η κ ρ)
    (src : Source ω ε χ η ρ) (ctx : χ) (w w1 : ω) (L : List (Endpoint ρ)) (E : ε)
    (hsrc : sc.serviceSrc = some src) (hup : src.Endpoints ctx w = ((L, some E), w1)) :
    sc.Endpoints rt ctx w = (.ok ([], some E), w1) := by
  simp only [serviceCnameSource.Endpoints, hsrc, hup]

lemma Endpoints_ret_inv (rt : Runtime ω ε) (sc : serviceCnameSource ω ε χ η κ ρ)
    (src : Source ω ε χ η ρ) (ctx : χ) (w w1 w2 : ω) (L res : List (Endpoint ρ))
    (err : Option ε) (hsrc : sc.serviceSrc = some src)
    (hup : src.Endpoints ctx w = ((L, none), w1))
    (hret : sc.Endpoints rt ctx w = (.ok (res, err), w2)) :
    err = none ∧ Endpoints.loop rt L w1 = (.ok res, w2) := by
  rw [Endpoints_upstream_ok rt sc src ctx w w1 L hsrc hup] at hret
  rcases hr : Endpoints.loop rt L w1 with ⟨p | eps, w3⟩
  · simp [hr] at hret
  · simp only [hr, Prod.mk.injEq, Except.ok.injEq] at hret
    exact ⟨hret.1.2.symm, by rw [hret.1.1, hret.2]⟩

lemma Endpoints_of_loop_ok (rt : Runtime ω ε) (sc : serviceCnameSource ω ε χ η κ ρ)
    (src : Source ω ε χ η ρ) (ctx : χ) (w w1 w2 : ω) (L res : List (Endpoint ρ))
    (hsrc : sc.serviceSrc = some src) (hup : src.Endpoints ctx w = ((L, none), w1))
    (hr : Endpoints.loop rt L w1 = (.ok res, w2)) :
    sc.Endpoints rt ctx w = (.ok (res, none), w2) := by
  rw [Endpoints_upstream_ok rt sc src ctx w w1 L hsrc hup, hr]

/-- The element at index `i` of what a returning call returns is the loop body's
result on the wrapped source's element at index `i`. -/
lemma Endpoints_index (rt : Runtime ω ε) (sc : serviceCnameSource ω ε χ η κ ρ)
    (src : Source ω ε χ η ρ) (ctx : χ) (w w1 w2 : ω) (L res : List (Endpoint ρ))
    (err : Option ε) (i : Nat) (ep : Endpoint ρ) (hsrc : sc.serviceSrc = some src)
    (hup : src.Endpoints ctx w = ((L, none), w1))
    (hret : sc.Endpoints rt ctx w = (.ok (res, err), w2)) (hi : L[i]? = some ep) :
    ∃ ep1, res[i]? = some ep1 ∧
      Endpoints.loopBody rt ep (worldBefore rt L w1 i) =
        (.ok ep1, worldBefore rt L w1 (i + 1)) :=
  (loop_index rt L w1 w2 res
    (Endpoints_ret_inv rt sc src ctx w w1 w2 L res err hsrc hup hret).2).2 i ep hi

lemma recRuntime_contract : ResolverContract recRuntime := by
  intro addr w
  simp only [recRuntime]
  split_ifs <;> simp

lemma no_dot_of_hasSuffix (h : String) (hs : HasSuffix h "." = false) :
    ¬ ∃ h1 : String, h = h1 ++ "." := by
  rintro ⟨h1, rfl⟩
  rw [hasSuffix_append_dot] at hs
  exact Bool.noConfusion hs

end decorator

/-! ## The claims -/

section claims

variable {ω ε χ η κ ρ : Type}

/-- C1: when the call of `Endpoints` returns `res` for the list `L` of the wrapped
source, and the lookup of `Targets[0]` of the endpoint at index `i` of `L` (made in
the world in which iteration `i` starts) succeeds with first candidate `h`, where
`h` does not end with ".", then the endpoint at index `i` of `res` has
`Targets[0] = h` and `RecordType = RecordTypeCNAME`, whatever the record type of
the endpoint was. -/
theorem resolved_target_becomes_cname (rt : Runtime ω ε)
    (sc : serviceCnameSource ω ε χ η κ ρ) (src : Source ω ε χ η ρ) (ctx : χ)
    (w w1 w2 w3 : ω) (L res : List (Endpoint ρ)) (err : Option ε) (i : Nat)
    (ep : Endpoint ρ) (target h : String) (names : List String)
    (hsrc : sc.serviceSrc = some src)
    (hup : src.Endpoints ctx w = ((L, none), w1))
    (hret : sc.Endpoints rt ctx w = (.ok (res, err), w2))
    (hi : L[i]? = some ep)
    (ht : ep.Targets[0]? = some target)
    (hl : rt.LookupAddr target (worldBefore rt L w1 i) = ((h :: names, none), w3))
    (hdot : ¬ ∃ h1 : String, h = h1 ++ ".") :
    ∃ ep1, res[i]? = some ep1 ∧ ep1.Targets[0]? = some h ∧
      ep1.RecordType = RecordTypeCNAME := by
  obtain ⟨ep1, hres, hb⟩ := Endpoints_index rt sc src ctx w w1 w2 L res err i ep hsrc hup hret hi
  rw [loopBody_succ rt ep _ w3 target h names ht hl] at hb
  simp only [Prod.mk.injEq, Except.ok.injEq] at hb
  refine ⟨ep1, hres, ?_, ?_⟩
  · rw [← hb.1, trimSuffix_of_no_dot h hdot]
    cases hT : ep.Targets with
    | nil => simp [hT] at ht
    | cons t ts => simp
  · rw [← hb.1]

/-- Witness of C1: `[epDb, epEdge]`, index 1. -/
theorem resolved_target_becomes_cname_witness :
    ((recDecorator ([epDb, epEdge], none)).Endpoints recRuntime 0 rec0).1 =
        .ok ([epDb, ⟨"edge.example.com", ["edge.example.org", "198.51.100.8"], "CNAME", ()⟩],
          none) ∧
      ∃ ep1, [epDb, (⟨"edge.example.com", ["edge.example.org", "198.51.100.8"], "CNAME", ()⟩ :
          Endpoint Unit)][1]? = some ep1 ∧
        ep1.Targets[0]? = some "edge.example.org" ∧ ep1.RecordType = RecordTypeCNAME :=
  ⟨rfl, resolved_target_becomes_cname recRuntime (recDecorator ([epDb, epEdge], none))
    (recSource ([epDb, epEdge], none)) 0 rec0 rec1 _ _ [epDb, epEdge] _ none 1 epEdge
    "198.51.100.7" "edge.example.org" ["alt.example.org"] rfl rfl rfl rfl rfl rfl
    (no_dot_of_hasSuffix _ (by decide))⟩

/-- C2: when the call of `Endpoints` returns `res` and the lookup of `Targets[0]` of
the endpoint at index `i` succeeds with first candidate `h ++ "."`, for any string
`h` (one that ends with "." included), the endpoint at index `i` of `res` has
`Targets[0] = h` and `RecordType = RecordTypeCNAME`: exactly one trailing "." is
stripped. -/
theorem one_trailing_dot_stripped (rt : Runtime ω ε)
    (sc : serviceCnameSource ω ε χ η κ ρ) (src : Source ω ε χ η ρ) (ctx : χ)
    (w w1 w2 w3 : ω) (L res : List (Endpoint ρ)) (err : Option ε) (i : Nat)
    (ep : Endpoint ρ) (target h : String) (names : List String)
    (hsrc : sc.serviceSrc = some src)
    (hup : src.Endpoints ctx w = ((L, none), w1))
    (hret : sc.Endpoints rt ctx w = (.ok (res, err), w2))
    (hi : L[i]? = some ep)
    (ht : ep.Targets[0]? = some target)
    (hl : rt.LookupAddr target (worldBefore rt L w1 i) = (((h ++ ".") :: names, none), w3)) :
    ∃ ep1, res[i]? = some ep1 ∧ ep1.Targets[0]? = some h ∧
      ep1.RecordType = RecordTypeCNAME := by
  obtain ⟨ep1, hres, hb⟩ := Endpoints_index rt sc src ctx w w1 w2 L res err i ep hsrc hup hret hi
  rw [loopBody_succ rt ep _ w3 target (h ++ ".") names ht hl] at hb
  simp only [Prod.mk.injEq, Except.ok.injEq] at hb
  refine ⟨ep1, hres, ?_, ?_⟩
  · rw [← hb.1, trimSuffix_append_dot h]
    cases hT : ep.Targets with
    | nil => simp [hT] at ht
    | cons t ts => simp
  · rw [← hb.1]

/-- Witness of C2: the target "203.0.113.9" resolving to
`["svc-lb.cloudprovider.net."]` gives `Targets = ["svc-lb.cloudprovider.net"]` with
record type CNAME; and a name ending in ".." keeps one trailing ".". -/
theorem one_trailing_dot_stripped_witness :
    TrimSuffix "svc-lb.cloudprovider.net.." "." = "svc-lb.cloudprovider.net." ∧
      ((recDecorator ([epSvc], none)).Endpoints recRuntime 0 rec0).1 =
        .ok ([⟨"svc.example.com", ["svc-lb.cloudprovider.net"], "CNAME", ()⟩], none) ∧
      ∃ ep1, [(⟨"svc.example.com", ["svc-lb.cloudprovider.net"], "CNAME", ()⟩ :
          Endpoint Unit)][0]? = some ep1 ∧
        ep1.Targets[0]? = some "svc-lb.cloudprovider.net" ∧
        ep1.RecordType = RecordTypeCNAME :=
  ⟨by decide, rfl, one_trailing_dot_stripped recRuntime (recDecorator ([epSvc], none))
    (recSource ([epSvc], none)) 0 rec0 rec1 _ _ [epSvc] _ none 0 epSvc
    "203.0.113.9" "svc-lb.cloudprovider.net" [] rfl rfl rfl rfl rfl rfl⟩

/-- C3: when the call of `Endpoints` returns `res` and the lookup of `Targets[0]` of
the endpoint at index `i` of the wrapped source's list fails, the endpoint at
index `i` of `res` is that endpoint, every field unchanged. -/
theorem failed_lookup_leaves_endpoint (rt : Runtime ω ε)
    (sc : serviceCnameSource ω ε χ η κ ρ) (src : Source ω ε χ η ρ) (ctx : χ)
    (w w1 w2 w3 : ω) (L res : List (Endpoint ρ)) (err : Option ε) (i : Nat)
    (ep : Endpoint ρ) (target : String) (names : List String) (e : ε)
    (hsrc : sc.serviceSrc = some src)
    (hup : src.Endpoints ctx w = ((L, none), w1))
    (hret : sc.Endpoints rt ctx w = (.ok (res, err), w2))
    (hi : L[i]? = some ep)
    (ht : ep.Targets[0]? = some target)
    (hl : rt.LookupAddr target (worldBefore rt L w1 i) = ((names, some e), w3)) :
    res[i]? = some ep := by
  obtain ⟨ep1, hres, hb⟩ := Endpoints_index rt sc src ctx w w1 w2 L res err i ep hsrc hup hret hi
  rw [loopBody_fail rt ep _ w3 target names e ht hl] at hb
  simp only [Prod.mk.injEq, Except.ok.injEq] at hb
  rw [hres, hb.1]

/-- Witness of C3: `[epSvc, epDb]`, index 1. -/
theorem failed_lookup_leaves_endpoint_witness :
    ((recDecorator ([epSvc, epDb], none)).Endpoints recRuntime 0 rec0).1 =
        .ok ([⟨"svc.example.com", ["svc-lb.cloudprovider.net"], "CNAME", ()⟩, epDb], none) ∧
      [(⟨"svc.example.com", ["svc-lb.cloudprovider.net"], "CNAME", ()⟩ : Endpoint Unit),
        epDb][1]? = some epDb :=
  ⟨rfl, failed_lookup_leaves_endpoint recRuntime (recDecorator ([epSvc, epDb], none))
    (recSource ([epSvc, epDb], none)) 0 rec0 rec1 _ _ [epSvc, epDb] _ none 1 epDb
    "10.0.0.1" [] "no such host" rfl rfl rfl rfl rfl rfl⟩

/-- C4: when the wrapped source's `Endpoints` returns the error `E` (with whatever
list), the decorator's `Endpoints` returns the empty sequence and exactly `E`, in
the world the wrapped source left: nothing is looked up or logged, whatever the
resolver would answer. -/
theorem upstream_error_propagated (rt : Runtime ω ε)
    (sc : serviceCnameSource ω ε χ η κ ρ) (src : Source ω ε χ η ρ) (ctx : χ)
    (w w1 : ω) (L : List (Endpoint ρ)) (E : ε)
    (hsrc : sc.serviceSrc = some src)
    (hup : src.Endpoints ctx w = ((L, some E), w1)) :
    sc.Endpoints rt ctx w = (.ok ([], some E), w1) := by
  simp only [serviceCnameSource.Endpoints, hsrc, hup]

/-- Witness of C4: the wrapped source returns `[epSvc]` with the error "boom". -/
theorem upstream_error_propagated_witness :
    (recSource ([epSvc], some "boom")).Endpoints 0 rec0 = (([epSvc], some "boom"), rec1) ∧
      (recDecorator ([epSvc], some "boom")).Endpoints recRuntime 0 rec0 =
        (.ok ([], some "boom"), rec1) :=
  ⟨rfl, upstream_error_propagated recRuntime (recDecorator ([epSvc], some "boom"))
    (recSource ([epSvc], some "boom")) 0 rec0 rec1 [epSvc] "boom" rfl rfl⟩

/-- C5: for a list `L` of the wrapped source in which every endpoint has at least one
target, and a resolver whose successful lookups are non-empty, `Endpoints` returns
a list `res` of the length of `L` with no error, and at every index `i` the element
of `res` is the endpoint `ep` of `L` at `i`, either unchanged (the lookup of
`ep.Targets[0]` made in iteration `i` failed) or rewritten from `ep` and the first
candidate (that lookup succeeded). -/
theorem order_and_length_preserved (rt : Runtime ω ε)
    (sc : serviceCnameSource ω ε χ η κ ρ) (src : Source ω ε χ η ρ) (ctx : χ)
    (w w1 : ω) (L : List (Endpoint ρ))
    (hsrc : sc.serviceSrc = some src)
    (hup : src.Endpoints ctx w = ((L, none), w1))
    (hT : ∀ ep ∈ L, ep.Targets ≠ [])
    (hnet : ResolverContract rt) :
    ∃ res w2, sc.Endpoints rt ctx w = (.ok (res, none), w2) ∧ res.length = L.length ∧
      ∀ i ep, L[i]? = some ep → ∃ target, ep.Targets[0]? = some target ∧
        ((∃ names e w3,
            rt.LookupAddr target (worldBefore rt L w1 i) = ((names, some e), w3) ∧
            res[i]? = some ep) ∨
         (∃ c names w3,
            rt.LookupAddr target (worldBefore rt L w1 i) = ((c :: names, none), w3) ∧
            res[i]? = some { ep with Targets := ep.Targets.set 0 (TrimSuffix c "."),
                                     RecordType := RecordTypeCNAME })) := by
  obtain ⟨res, w2, hr⟩ := loop_total rt hnet L w1 hT
  obtain ⟨hlen, hidx⟩ := loop_index rt L w1 w2 res hr
  refine ⟨res, w2, Endpoints_of_loop_ok rt sc src ctx w w1 w2 L res hsrc hup hr, hlen, ?_⟩
  intro i ep hi
  obtain ⟨ep1, hres, hb⟩ := hidx i ep hi
  obtain ⟨target, ht, hcase⟩ := loopBody_ok_inv rt ep ep1 _ _ hb
  refine ⟨target, ht, ?_⟩
  rcases hcase with ⟨names, e, w3, hl, rfl⟩ | ⟨c, names, w3, hl, rfl⟩
  · exact Or.inl ⟨names, e, w3, hl, hres⟩
  · exact Or.inr ⟨c, names, w3, hl, hres⟩

/-- Witness of C5: two endpoints, the first lookup fails and the second succeeds; the
result is the first endpoint unchanged followed by the second one rewritten. -/
theorem order_and_length_preserved_witness :
    (∀ ep ∈ [epDb, epSvc], ep.Targets ≠ []) ∧ ResolverContract recRuntime ∧
      ((recDecorator ([epDb, epSvc], none)).Endpoints recRuntime 0 rec0).1 =
        .ok ([epDb, ⟨"svc.example.com", ["svc-lb.cloudprovider.net"], "CNAME", ()⟩], none) ∧
      ∃ res w2, (recDecorator ([epDb, epSvc], none)).Endpoints recRuntime 0 rec0 =
          (.ok (res, none), w2) ∧ res.length = [epDb, epSvc].length ∧
        ∀ i ep, [epDb, epSvc][i]? = some ep → ∃ target, ep.Targets[0]? = some target ∧
          ((∃ names e w3,
              recRuntime.LookupAddr target (worldBefore recRuntime [epDb, epSvc] rec1 i) =
                ((names, some e), w3) ∧
              res[i]? = some ep) ∨
           (∃ c names w3,
              recRuntime.LookupAddr target (worldBefore recRuntime [epDb, epSvc] rec1 i) =
                ((c :: names, none), w3) ∧
              res[i]? = some { ep with Targets := ep.Targets.set 0 (TrimSuffix c "."),
                                       RecordType := RecordTypeCNAME })) :=
  ⟨by decide, recRuntime_contract, rfl,
    order_and_length_preserved recRuntime (recDecorator ([epDb, epSvc], none))
      (recSource ([epDb, epSvc], none)) 0 rec0 rec1 [epDb, epSvc] rfl rfl (by decide)
      recRuntime_contract⟩

/-- C6: let the wrapped source return the list `L` and the error value `e0` (nil or
not), every endpoint of `L` having at least one target when `e0` is nil, and let
successful lookups be non-empty. Then `Endpoints` returns, without a panic, a list
together with exactly `e0`: it returns an error if and only if the wrapped source
does, so no lookup failure reaches the caller. When `e0` is nil the list has the
length of `L`, and it is `L` itself when every lookup of the pass fails. -/
theorem lookup_failure_never_surfaced (rt : Runtime ω ε)
    (sc : serviceCnameSource ω ε χ η κ ρ) (src : Source ω ε χ η ρ) (ctx : χ)
    (w w1 : ω) (L : List (Endpoint ρ)) (e0 : Option ε)
    (hsrc : sc.serviceSrc = some src)
    (hup : src.Endpoints ctx w = ((L, e0), w1))
    (hT : e0 = none → ∀ ep ∈ L, ep.Targets ≠ [])
    (hnet : ResolverContract rt) :
    ∃ res w2, sc.Endpoints rt ctx w = (.ok (res, e0), w2) ∧
      (e0 = none → res.length = L.length ∧
        ((∀ i ep target, L[i]? = some ep → ep.Targets[0]? = some target →
            (rt.LookupAddr target (worldBefore rt L w1 i)).1.2 ≠ none) → res = L)) := by
  cases e0 with
  | some E =>
    exact ⟨[], w1, Endpoints_upstream_err rt sc src ctx w w1 L E hsrc hup,
      fun h => Option.noConfusion h⟩
  | none =>
    obtain ⟨res, w2, hr⟩ := loop_total rt hnet L w1 (hT rfl)
    obtain ⟨hlen, hidx⟩ := loop_index rt L w1 w2 res hr
    refine ⟨res, w2, Endpoints_of_loop_ok rt sc src ctx w w1 w2 L res hsrc hup hr,
      fun _ => ⟨hlen, ?_⟩⟩
    intro hfail
    apply List.ext_getElem?
    intro i
    rcases hi : L[i]? with _ | ep
    · rw [List.getElem?_eq_none_iff] at hi ⊢
      omega
    · obtain ⟨ep1, hres, hb⟩ := hidx i ep hi
      obtain ⟨target, ht, hcase⟩ := loopBody_ok_inv rt ep ep1 _ _ hb
      rcases hcase with ⟨names, e, w3, _, rfl⟩ | ⟨c, names, w3, hl, _⟩
      · exact hres
      · exact absurd (by rw [hl]) (hfail i ep target hi ht)

/-- Witness of C6: two endpoints whose lookups both fail; the result is the wrapped
source's list. -/
theorem lookup_failure_never_surfaced_witness :
    (∀ ep ∈ [epDb, epDb], ep.Targets ≠ []) ∧ ResolverContract recRuntime ∧
      ((recDecorator ([epDb, epDb], none)).Endpoints recRuntime 0 rec0).1 =
        .ok ([epDb, epDb], none) ∧
      ∃ res w2, (recDecorator ([epDb, epDb], none)).Endpoints recRuntime 0 rec0 =
          (.ok (res, none), w2) ∧
        ((none : Option String) = none → res.length = [epDb, epDb].length ∧
          ((∀ i ep target, [epDb, epDb][i]? = some ep → ep.Targets[0]? = some target →
              (recRuntime.LookupAddr target
                (worldBefore recRuntime [epDb, epDb] rec1 i)).1.2 ≠ none) →
            res = [epDb, epDb])) :=
  ⟨by decide, recRuntime_contract, rfl,
    lookup_failure_never_surfaced recRuntime (recDecorator ([epDb, epDb], none))
      (recSource ([epDb, epDb], none)) 0 rec0 rec1 [epDb, epDb] none rfl rfl
      (fun _ => by decide) recRuntime_contract⟩

/-- C7: `AddEventHandler(ctx, cb)` on a decorator around the source `src` leaves the
decorator as it is, and the world it leaves is the one `src.AddEventHandler`
produces, applied once to the same `ctx` and the same `cb`, from the world after
the decorator's debug line; the handler is an opaque value the decorator only
passes on. -/
theorem addEventHandler_forwarded (rt : Runtime ω ε)
    (sc : serviceCnameSource ω ε χ η κ ρ) (src : Source ω ε χ η ρ) (ctx : χ) (cb : η)
    (w : ω) (hsrc : sc.serviceSrc = some src) :
    sc.AddEventHandler rt ctx cb w =
      (.ok sc, src.AddEventHandler ctx cb
        (rt.Debug "Adding event handler for serviceCname" w)) := by
  simp only [serviceCnameSource.AddEventHandler, hsrc]

/-- Witness of C7: on the recording world the wrapped source has registered the pair
`(7, 42)` once, and its `Endpoints` has not been called. -/
theorem addEventHandler_forwarded_witness :
    ((recDecorator ([epSvc], none)).AddEventHandler recRuntime 7 42 rec0).2.handlers =
        [(7, 42)] ∧
      ((recDecorator ([epSvc], none)).AddEventHandler recRuntime 7 42 rec0).2.calls = 0 ∧
      (recDecorator ([epSvc], none)).AddEventHandler recRuntime 7 42 rec0 =
        (.ok (recDecorator ([epSvc], none)),
          (recSource ([epSvc], none)).AddEventHandler 7 42
            (recRuntime.Debug "Adding event handler for serviceCname" rec0)) :=
  ⟨rfl, rfl, addEventHandler_forwarded recRuntime (recDecorator ([epSvc], none))
    (recSource ([epSvc], none)) 7 42 rec0 rfl⟩

/-- C8: for every cluster client, namespace and wrapped source (nil ones included),
`NewServiceCnameSource` returns a decorator and a nil error; the decorator holds
the given client, namespace and wrapped source, and the world is the one the call
started in: no operation of the wrapped source was called. -/
theorem constructor_stores_collaborators (ctx : χ) (kubeClient : Option κ)
    (ns : String) (serviceSrc : Option (Source ω ε χ η ρ)) (w : ω) :
    ∃ sc : serviceCnameSource ω ε χ η κ ρ,
      NewServiceCnameSource ctx kubeClient ns serviceSrc w = ((sc, (none : Option ε)), w) ∧
      sc.client = kubeClient ∧ sc.namespace' = ns ∧ sc.serviceSrc = serviceSrc :=
  ⟨_, rfl, rfl, rfl, rfl⟩

/-- C9: when the call of `Endpoints` returns `res` and the lookup of `Targets[0]` of
the endpoint `ep` at index `i` succeeds with first candidate `c`, the endpoint at
index `i` of `res` has the `DNSName` of `ep`, as many targets as `ep`, the targets
of `ep` at every index from 1 on, and the other fields of `ep`; and the iteration
has made one lookup, of `Targets[0]`, and written one debug line. -/
theorem rewrite_touches_first_target_and_type (rt : Runtime ω ε)
    (sc : serviceCnameSource ω ε χ η κ ρ) (src : Source ω ε χ η ρ) (ctx : χ)
    (w w1 w2 w3 : ω) (L res : List (Endpoint ρ)) (err : Option ε) (i : Nat)
    (ep : Endpoint ρ) (target c : String) (names : List String)
    (hsrc : sc.serviceSrc = some src)
    (hup : src.Endpoints ctx w = ((L, none), w1))
    (hret : sc.Endpoints rt ctx w = (.ok (res, err), w2))
    (hi : L[i]? = some ep)
    (ht : ep.Targets[0]? = some target)
    (hl : rt.LookupAddr target (worldBefore rt L w1 i) = ((c :: names, none), w3)) :
    ∃ ep1, res[i]? = some ep1 ∧ ep1.DNSName = ep.DNSName ∧
      ep1.Targets.length = ep.Targets.length ∧
      (∀ j, 1 ≤ j → ep1.Targets[j]? = ep.Targets[j]?) ∧
      ep1.other = ep.other ∧
      worldBefore rt L w1 (i + 1) =
        rt.Debug ("Resolved PTR " ++ ep.DNSName ++ " -> " ++ c) w3 := by
  obtain ⟨ep1, hres, hb⟩ := Endpoints_index rt sc src ctx w w1 w2 L res err i ep hsrc hup hret hi
  rw [loopBody_succ rt ep _ w3 target c names ht hl] at hb
  simp only [Prod.mk.injEq, Except.ok.injEq] at hb
  obtain ⟨rfl, hw⟩ := hb
  refine ⟨_, hres, rfl, by simp, ?_, rfl, hw.symm⟩
  intro j hj
  have hne : 0 ≠ j := by omega
  simp [List.getElem?_set_ne hne]

/-- Witness of C9: `[epEdge]`, whose second target stays. -/
theorem rewrite_touches_first_target_and_type_witness :
    ((recDecorator ([epEdge], none)).Endpoints recRuntime 0 rec0).1 =
        .ok ([⟨"edge.example.com", ["edge.example.org", "198.51.100.8"], "CNAME", ()⟩],
          none) ∧
      ∃ ep1, [(⟨"edge.example.com", ["edge.example.org", "198.51.100.8"], "CNAME", ()⟩ :
          Endpoint Unit)][0]? = some ep1 ∧ ep1.DNSName = epEdge.DNSName ∧
        ep1.Targets.length = epEdge.Targets.length ∧
        (∀ j, 1 ≤ j → ep1.Targets[j]? = epEdge.Targets[j]?) ∧
        ep1.other = epEdge.other ∧
        worldBefore recRuntime [epEdge] rec1 (0 + 1) =
          recRuntime.Debug ("Resolved PTR " ++ epEdge.DNSName ++ " -> " ++ "edge.example.org")
            { rec1 with lookups := ["198.51.100.7"] } :=
  ⟨rfl, rewrite_touches_first_target_and_type recRuntime (recDecorator ([epEdge], none))
    (recSource ([epEdge], none)) 0 rec0 rec1 _ _ [epEdge] _ none 0 epEdge
    "198.51.100.7" "edge.example.org" ["alt.example.org"] rfl rfl rfl rfl rfl rfl⟩

/-- C10: let successful lookups be non-empty and let the wrapped source succeed with
the list `L`. Then `Endpoints` returns a sequence (with no error) if and only if
every endpoint of `L` has at least one target, and it panics with an index
violation if and only if some endpoint of `L` has an empty `Targets`. -/
theorem index_violation_iff_empty_targets (rt : Runtime ω ε)
    (sc : serviceCnameSource ω ε χ η κ ρ) (src : Source ω ε χ η ρ) (ctx : χ)
    (w w1 : ω) (L : List (Endpoint ρ))
    (hsrc : sc.serviceSrc = some src)
    (hup : src.Endpoints ctx w = ((L, none), w1))
    (hnet : ResolverContract rt) :
    ((∃ res w2, sc.Endpoints rt ctx w = (.ok (res, none), w2)) ↔
        ∀ ep ∈ L, ep.Targets ≠ []) ∧
      ((sc.Endpoints rt ctx w).1 = .error .indexOutOfRange ↔
        ∃ ep ∈ L, ep.Targets = []) := by
  have hok : (∀ ep ∈ L, ep.Targets ≠ []) →
      ∃ res w2, sc.Endpoints rt ctx w = (.ok (res, none), w2) := by
    intro hT
    obtain ⟨res, w2, hr⟩ := loop_total rt hnet L w1 hT
    exact ⟨res, w2, Endpoints_of_loop_ok rt sc src ctx w w1 w2 L res hsrc hup hr⟩
  have hinv : (∃ res w2, sc.Endpoints rt ctx w = (.ok (res, none), w2)) →
      ∀ ep ∈ L, ep.Targets ≠ [] := by
    rintro ⟨res, w2, hret⟩
    exact loop_ok_targets rt L w1 w2 res
      (Endpoints_ret_inv rt sc src ctx w w1 w2 L res none hsrc hup hret).2
  refine ⟨⟨hinv, hok⟩, ?_, ?_⟩
  · intro hp
    by_contra hno
    have hT : ∀ ep ∈ L, ep.Targets ≠ [] := fun ep hep hnil => hno ⟨ep, hep, hnil⟩
    obtain ⟨res, w2, hret⟩ := hok hT
    rw [hret] at hp
    exact Except.noConfusion hp
  · rintro ⟨ep, hep, hnil⟩
    rw [Endpoints_upstream_ok rt sc src ctx w w1 L hsrc hup]
    rcases hr : Endpoints.loop rt L w1 with ⟨p | res, w2⟩
    · rw [loop_panic rt L w1 w2 p hr]
    · exact absurd hnil (loop_ok_targets rt L w1 w2 res hr ep hep)

/-- Witness of C10: `[epSvc, epBare]` panics with an index violation. -/
theorem index_violation_iff_empty_targets_witness :
    ResolverContract recRuntime ∧
      (((∃ res w2, (recDecorator ([epSvc, epBare], none)).Endpoints recRuntime 0 rec0 =
            (.ok (res, none), w2)) ↔
          ∀ ep ∈ [epSvc, epBare], ep.Targets ≠ []) ∧
        (((recDecorator ([epSvc, epBare], none)).Endpoints recRuntime 0 rec0).1 =
            .error .indexOutOfRange ↔
          ∃ ep ∈ [epSvc, epBare], ep.Targets = [])) ∧
      ((recDecorator ([epSvc, epBare], none)).Endpoints recRuntime 0 rec0).1 =
        .error .indexOutOfRange :=
  ⟨recRuntime_contract,
    index_violation_iff_empty_targets recRuntime (recDecorator ([epSvc, epBare], none))
      (recSource ([epSvc, epBare], none)) 0 rec0 rec1 [epSvc, epBare] rfl rfl
      recRuntime_contract, rfl⟩

end claims

end source
